import Mathlib

/-
Verification of the TaskFlow asynchronous task-lifecycle pipeline.

Shallow embedding of:
  - src/src/modules/tasks/tasks.service.ts
      (create, findAll, findOne, update, batchUpdateStatus, updateStatus)
  - src/unnamed/part_003  (task-processor.service.ts:
      process, handleStatusUpdate, handleOverdueTasks)

Conventions of the embedding:
  - The relational store is a list of Task rows; TypeORM repository calls
    become pure functions over that list.  Primary-key semantics: a save of a
    row replaces every row with the same id (ids are unique in practice).
  - Timestamps (dueDate, the "now" of a sweep) are Int millisecond epochs;
    the ISO strings fed to TypeORM Between(...) become Int bounds.
  - JS falsiness of string payload fields (undefined / null / "") is modelled
    by Option String together with falsyStr.
  - Thrown exceptions become explicit outcome values; a TypeORM transaction
    whose callback throws rolls every write back, so the embedding of create
    returns the unchanged store and queue in the two failure cases.
  - Ordering of query results (order by createdAt DESC) is not modelled: the
    store list is taken to be already in result order; every verified
    property is about counts, sets and page sizes, never about row order.
-/

set_option maxRecDepth 4000

namespace TaskFlow

/-- Task status enum. Member names PENDING, IN_PROGRESS, COMPLETED appear in
src/src/modules/tasks/tasks.service.ts; the enum source file itself is not in
the snapshot, so the runtime string values are modelled from the spec:
section 3 fixes the member set as pending, in_progress, completed. -/
inductive TaskStatus
  | pending
  | in_progress
  | completed
deriving DecidableEq, Repr

/-- Task priority enum (low, medium, high), as referenced by the service. -/
inductive TaskPriority
  | low
  | medium
  | high
deriving DecidableEq, Repr

/-- The user relation row as the pipeline sees it (email and name only). -/
structure User where
  email : String
  name : String
deriving DecidableEq, Repr

/-- A task row, with the user relation eagerly loaded (relations: user). -/
structure Task where
  id : String
  title : String
  description : Option String
  status : TaskStatus
  priority : TaskPriority
  dueDate : Option Int
  userId : String
  user : Option User
deriving DecidableEq, Repr

/-- The task store: the rows of the tasks table, in result order. -/
abbrev Store := List Task

/-- Modelled from the spec: the runtime string values of the task-status
enum (the enum source file is not in the snapshot; spec section 3 gives
pending, in_progress, completed). -/
def statusValues : List String := ["pending", "in_progress", "completed"]

/-- Runtime string value of a TaskStatus member. -/
def statusToStr : TaskStatus → String
  | TaskStatus.pending => "pending"
  | TaskStatus.in_progress => "in_progress"
  | TaskStatus.completed => "completed"

/-- Recover a TaskStatus member from its runtime string value; none exactly
when the string is outside the enum.  This is the embedding of the check
Object.values(TaskStatus).includes(status) in part_003 line 109, fused with
the cast of the payload string to the typed status used afterwards. -/
def parseStatus (s : String) : Option TaskStatus :=
  if s = "pending" then some TaskStatus.pending
  else if s = "in_progress" then some TaskStatus.in_progress
  else if s = "completed" then some TaskStatus.completed
  else none

/-- The data field of a task-status-update job: a JSON object whose two
fields may each be absent. -/
structure JobData where
  taskId : Option String
  status : Option String
deriving DecidableEq, Repr

/-- JS falsiness of an optional string field: absent (undefined / null) or
the empty string. -/
def falsyStr : Option String → Bool
  | none => true
  | some s => s == ""

/-- A job enqueued on the task-processing queue, with its per-job options. -/
structure QueuedJob where
  name : String
  data : JobData
  attempts : Nat
  backoffDelay : Nat
deriving DecidableEq, Repr

/-- The job every producer path enqueues:
taskQueue.add of a task-status-update with payload { taskId, status } and
options { attempts: 3, backoff: { type: exponential, delay: 1000 } }. -/
def mkStatusJob (taskId : String) (s : TaskStatus) : QueuedJob :=
  { name := "task-status-update"
    data := { taskId := some taskId, status := some (statusToStr s) }
    attempts := 3
    backoffDelay := 1000 }

/-- The filter and pagination part of TaskFilterDto as findAll consumes it.
The title and priority filters of findAll are never exercised by any claim
(the sweep passes neither) and are left out of the embedding. -/
structure TaskFilterDto where
  status : Option TaskStatus
  dueDateBefore : Option Int
  dueDateAfter : Option Int
  userId : Option String
  page : Option Nat
  limit : Option Nat
deriving Repr

/-- Millisecond epoch of 1900-01-01, the lower Between bound findAll uses
when only dueDateBefore is given. -/
def date1900 : Int := -2208988800000

/-- Millisecond epoch of 2100-01-01, the upper Between bound findAll uses
when only dueDateAfter is given. -/
def date2100 : Int := 4102444800000

/-- The where-condition findAll builds (tasks.service.ts lines 70-93):
status equality when requested, TypeORM Between on dueDate (inclusive
bounds), and the ownership filter.  A userId key whose value is undefined
(non-admin caller with no loggedInUserId, as in the worker-driven sweep) is
skipped, which is TypeORM's behaviour for undefined where values. -/
def matchesWhere (f : TaskFilterDto) (loggedInUserId : Option String)
    (isAdmin : Bool) (t : Task) : Bool :=
  (match f.status with
    | some s => t.status == s
    | none => true) &&
  (match f.dueDateBefore, f.dueDateAfter with
    | some b, some a =>
      match t.dueDate with
      | some d => decide (a ≤ d) && decide (d ≤ b)
      | none => false
    | some b, none =>
      match t.dueDate with
      | some d => decide (date1900 ≤ d) && decide (d ≤ b)
      | none => false
    | none, some a =>
      match t.dueDate with
      | some d => decide (a ≤ d) && decide (d ≤ date2100)
      | none => false
    | none, none => true) &&
  (if !isAdmin then
    match loggedInUserId with
    | some u => t.userId == u
    | none => true
  else
    match f.userId with
    | some u => t.userId == u
    | none => true)

/-- Result shape of findAll: the page of rows plus the total matching
count, as returned by findAndCount. -/
structure Paginated where
  data : List Task
  total : Nat
deriving Repr

/-- tasks.service.ts findAll: page and limit default to 1 and 10 through
Number(x) or-else default, skip is (page - 1) * limit, and the page is the
skip/take window of the filtered rows. -/
def findAll (st : Store) (f : TaskFilterDto) (loggedInUserId : Option String)
    (isAdmin : Bool) : Paginated :=
  let pageNumber := match f.page with
    | some p => if p = 0 then 1 else p
    | none => 1
  let limitNumber := match f.limit with
    | some l => if l = 0 then 10 else l
    | none => 10
  let skip := (pageNumber - 1) * limitNumber
  let filtered := st.filter (matchesWhere f loggedInUserId isAdmin)
  { data := (filtered.drop skip).take limitNumber
    total := filtered.length }

/-- tasks.service.ts findOne: fetch by id, restricted to the caller's own
rows unless admin; none models the thrown NotFoundException. -/
def findOne (st : Store) (id : String) (loggedInUserId : Option String)
    (isAdmin : Bool) : Option Task :=
  st.find? (fun t =>
    t.id == id &&
    (if !isAdmin then
      match loggedInUserId with
      | some u => t.userId == u
      | none => true
    else true))

/-- The creation DTO (title required, the rest optional). -/
structure CreateTaskDto where
  title : String
  description : Option String
  status : Option TaskStatus
  priority : Option TaskPriority
  dueDate : Option Int
deriving Repr

/-- The row built by transactionalEntityManager.create / save inside create:
the DTO spread plus the authenticated userId, the generated id, and the
entity column defaults (status pending, priority medium — the entity file is
not in the snapshot; the defaults are modelled from the spec and the DTO
examples, and no claim depends on which default is taken). -/
def newTaskOf (dto : CreateTaskDto) (userId : String) (newId : String) : Task :=
  { id := newId
    title := dto.title
    description := dto.description
    status := dto.status.getD TaskStatus.pending
    priority := dto.priority.getD TaskPriority.medium
    dueDate := dto.dueDate
    userId := userId
    user := none }

/-- The two points at which the transaction callback of create can throw. -/
inductive CreateFailure
  | saveFailed
  | enqueueFailed
deriving DecidableEq, Repr

/-- Observable outcome of create: the store and queue afterwards, and the
returned task or thrown failure. -/
structure CreateResult where
  store : Store
  queue : List QueuedJob
  outcome : Except CreateFailure Task
deriving Repr

/-- tasks.service.ts create (lines 31-53).  The save and the queue add both
run inside tasksRepository.manager.transaction; a throw from either point
rejects the callback and rolls the persistence write back, so in both
failure cases the function returns the unchanged store and queue (the failed
add placed no job).  saveFails and enqueueFails inject a failure at the
respective await. -/
def create (st : Store) (q : List QueuedJob) (dto : CreateTaskDto)
    (userId : String) (newId : String) (saveFails enqueueFails : Bool) :
    CreateResult :=
  let task := newTaskOf dto userId newId
  if saveFails then
    { store := st, queue := q, outcome := Except.error CreateFailure.saveFailed }
  else if enqueueFails then
    { store := st, queue := q, outcome := Except.error CreateFailure.enqueueFailed }
  else
    { store := st ++ [task]
      queue := q ++ [mkStatusJob task.id task.status]
      outcome := Except.ok task }

/-- The update DTO: every field optional. -/
structure UpdateTaskDto where
  title : Option String
  description : Option String
  status : Option TaskStatus
  priority : Option TaskPriority
  dueDate : Option Int
deriving Repr

/-- tasksRepository.merge: apply the provided DTO fields onto the entity. -/
def mergeTask (t : Task) (dto : UpdateTaskDto) : Task :=
  { t with
    title := dto.title.getD t.title
    description := match dto.description with
      | some d => some d
      | none => t.description
    status := dto.status.getD t.status
    priority := dto.priority.getD t.priority
    dueDate := match dto.dueDate with
      | some d => some d
      | none => t.dueDate }

/-- Failures thrown by the single-row service paths. -/
inductive ServiceFailure
  | notFound
deriving DecidableEq, Repr

/-- Observable outcome of update: store and queue afterwards plus the
returned task or thrown NotFoundException. -/
structure UpdateResult where
  store : Store
  queue : List QueuedJob
  outcome : Except ServiceFailure Task
deriving Repr

/-- tasks.service.ts update (lines 133-163): findOne with ownership check,
snapshot originalStatus, merge and save, then enqueue one
task-status-update job only if the status value changed. -/
def update (st : Store) (q : List QueuedJob) (id : String)
    (dto : UpdateTaskDto) (loggedInUserId : String) (isAdmin : Bool) :
    UpdateResult :=
  match findOne st id (some loggedInUserId) isAdmin with
  | none => { store := st, queue := q, outcome := Except.error ServiceFailure.notFound }
  | some task =>
    let originalStatus := task.status
    let updatedTask := mergeTask task dto
    let newStore := st.map (fun u => if u.id == task.id then updatedTask else u)
    let newQueue :=
      if originalStatus == updatedTask.status then q
      else q ++ [mkStatusJob updatedTask.id updatedTask.status]
    { store := newStore, queue := newQueue, outcome := Except.ok updatedTask }

/-- Observable outcome of batchUpdateStatus. -/
structure BatchResult where
  store : Store
  queue : List QueuedJob
  updated : Nat
  failed : Nat
deriving Repr

/-- tasks.service.ts batchUpdateStatus (lines 213-246): one
tasksRepository.update over id In(taskIds) (restricted to the caller's own
rows unless admin), then a loop over taskIds — every requested id, affected
or not — enqueueing one task-status-update job per id with attempts 3.
updated is the affected row count; failed is the remainder of the request. -/
def batchUpdateStatus (st : Store) (q : List QueuedJob) (taskIds : List String)
    (newStatus : TaskStatus) (loggedInUserId : String) (isAdmin : Bool) :
    BatchResult :=
  let cond := fun (t : Task) =>
    taskIds.contains t.id && (isAdmin || t.userId == loggedInUserId)
  let affected := (st.filter cond).length
  { store := st.map (fun t => if cond t then { t with status := newStatus } else t)
    queue := q ++ taskIds.map (fun tid => mkStatusJob tid newStatus)
    updated := affected
    failed := taskIds.length - affected }

/-- tasks.service.ts updateStatus (lines 270-282), the worker-facing write:
findOne by id with no ownership check; a missing row throws
NotFoundException, otherwise the row's status is set and saved. -/
def updateStatus (st : Store) (id : String) (s : TaskStatus) :
    Except ServiceFailure (Store × Task) :=
  match st.find? (fun t => t.id == id) with
  | none => Except.error ServiceFailure.notFound
  | some task =>
    let updatedTask := { task with status := s }
    Except.ok (st.map (fun u => if u.id == id then updatedTask else u), updatedTask)

/-- Error classification at the worker boundary: a handler run either
returns (ok), throws UnrecoverableError, or throws anything else
(recoverable: BullMQ applies the retry policy). -/
inductive HandlerOutcome
  | ok
  | recoverable
  | unrecoverable
deriving DecidableEq, Repr

/-- Result of one handler invocation: its classification, the store it
leaves behind, and whether the invocation logged at error level. -/
structure HandlerResult where
  outcome : HandlerOutcome
  store : Store
  errLogged : Bool
deriving Repr

/-- part_003 handleStatusUpdate (lines 97-132): a falsy taskId or status
throws UnrecoverableError (after logger.error); a status outside the enum
throws UnrecoverableError (after logger.error); otherwise
tasksService.updateStatus runs, whose NotFoundException (or any store
failure) is logged and rethrown — not an UnrecoverableError, so BullMQ
classifies it retriable. -/
def handleStatusUpdate (st : Store) (d : JobData) : HandlerResult :=
  if falsyStr d.taskId || falsyStr d.status then
    { outcome := HandlerOutcome.unrecoverable, store := st, errLogged := true }
  else
    match parseStatus (d.status.getD "") with
    | none =>
      { outcome := HandlerOutcome.unrecoverable, store := st, errLogged := true }
    | some s =>
      match updateStatus st (d.taskId.getD "") s with
      | Except.error _ =>
        { outcome := HandlerOutcome.recoverable, store := st, errLogged := true }
      | Except.ok (st2, _) =>
        { outcome := HandlerOutcome.ok, store := st2, errLogged := false }

/-- Terminal state of a job after the queue is done with it. -/
inductive JobTerminal
  | completedJob
  | droppedJob
  | failedJob
deriving DecidableEq, Repr

/-- Modelled from the spec: BullMQ's retry machinery is an external library,
embedded per spec section 4.1 — a successful attempt acks the job; an attempt
that throws UnrecoverableError is acked-and-dropped with no retry; any other
throw is nacked and retried until attemptsMade reaches maxAttempts, at which
point the job is terminal-failed.  Returns the attempts made and the
terminal state, starting from the given attempt number. -/
def runAttempts (handlerAt : Nat → HandlerOutcome) (maxAttempts : Nat)
    (attempt : Nat) : Nat × JobTerminal :=
  match handlerAt attempt with
  | HandlerOutcome.ok => (attempt, JobTerminal.completedJob)
  | HandlerOutcome.unrecoverable => (attempt, JobTerminal.droppedJob)
  | HandlerOutcome.recoverable =>
    if h : attempt < maxAttempts then
      runAttempts handlerAt maxAttempts (attempt + 1)
    else
      (attempt, JobTerminal.failedJob)
termination_by maxAttempts - attempt
decreasing_by omega

/-- The guard task.user and task.user.email of the sweep's per-task branch:
a loaded user relation whose email is truthy. -/
def hasRecipient (t : Task) : Bool :=
  match t.user with
  | some u => !(u.email == "")
  | none => false

/-- The rows the sweep's findAll call matches: status pending and dueDate
within Between(1900-01-01, now). -/
def overduePred (now : Int) (t : Task) : Bool :=
  (t.status == TaskStatus.pending) &&
  (match t.dueDate with
    | some d => decide (date1900 ≤ d) && decide (d ≤ now)
    | none => false)

/-- The filter DTO handleOverdueTasks passes to findAll on each page. -/
def sweepFilterDto (now : Int) (page : Nat) : TaskFilterDto :=
  { status := some TaskStatus.pending
    dueDateBefore := some now
    dueDateAfter := none
    userId := none
    page := some page
    limit := some 100 }

/-- Everything one sweep run observably does: the row count of every findAll
fetch in order, the task ids for which a sendMail call was made, the subset
whose sendMail call succeeded, the returned totalOverdueProcessed, the store
left behind, and the job's success flag. -/
structure SweepRun where
  fetchedPages : List Nat
  attempted : List String
  sent : List String
  total : Nat
  storeAfter : Store
  success : Bool
deriving Repr

/-- part_003 handleOverdueTasks' while loop (lines 137-199): fetch the page
floor(offset / 100) + 1 of the overdue rows; an empty page ends the loop;
otherwise, for each task with a recipient, attempt sendMail (a failure is
caught and logged, never propagated), add the page's length to the running
total, and end the loop if the page was short of 100, else continue at
offset + 100.  sendOk gives each sendMail call's outcome by task id. -/
def sweepLoop (now : Int) (st : Store) (sendOk : String → Bool)
    (offset : Nat) : SweepRun :=
  if h0 : (findAll st (sweepFilterDto now (offset / 100 + 1)) none false).data.length = 0 then
    { fetchedPages := [0], attempted := [], sent := [], total := 0
      storeAfter := st, success := true }
  else if h1 : (findAll st (sweepFilterDto now (offset / 100 + 1)) none false).data.length < 100 then
    let pageData := (findAll st (sweepFilterDto now (offset / 100 + 1)) none false).data
    let attemptedHere := (pageData.filter hasRecipient).map (fun t => t.id)
    { fetchedPages := [pageData.length], attempted := attemptedHere
      sent := attemptedHere.filter sendOk, total := pageData.length
      storeAfter := st, success := true }
  else
    let pageData := (findAll st (sweepFilterDto now (offset / 100 + 1)) none false).data
    let attemptedHere := (pageData.filter hasRecipient).map (fun t => t.id)
    let rest := sweepLoop now st sendOk (offset + 100)
    { fetchedPages := pageData.length :: rest.fetchedPages
      attempted := attemptedHere ++ rest.attempted
      sent := (attemptedHere.filter sendOk) ++ rest.sent
      total := pageData.length + rest.total
      storeAfter := rest.storeAfter
      success := rest.success }
termination_by (st.filter (overduePred now)).length + 100 - offset
decreasing_by
  have hcong : List.filter
        (matchesWhere (sweepFilterDto now (offset / 100 + 1)) none false) st
      = List.filter (overduePred now) st := by
    apply List.filter_congr
    intro t _
    simp only [matchesWhere, sweepFilterDto, overduePred, Bool.not_false,
      if_pos]
    cases t.dueDate <;> simp
  have hdata : (findAll st (sweepFilterDto now (offset / 100 + 1))
        none false).data
      = ((st.filter (overduePred now)).drop
          ((offset / 100 + 1 - 1) * 100)).take 100 := by
    simp only [findAll, hcong]
    simp [sweepFilterDto]
  rw [hdata] at h1
  have hlen := List.length_take 100 ((st.filter (overduePred now)).drop
    ((offset / 100 + 1 - 1) * 100))
  rw [List.length_drop] at hlen
  omega

/-- part_003 handleOverdueTasks (lines 134-217): run the paging loop from
offset 0.  No operation inside the loop can throw (sendMail failures are
caught per item), so the catch-and-rethrow wrapper is never taken and the
job returns success. -/
def handleOverdueTasks (now : Int) (st : Store) (sendOk : String → Bool) :
    SweepRun :=
  sweepLoop now st sendOk 0

/-- part_003 process (lines 59-95): dispatch on job.name; an unknown name
throws UnrecoverableError; the catch block logs and rethrows preserving the
UnrecoverableError / retriable classification of handler throws. -/
def process (now : Int) (sendOk : String → Bool) (st : Store)
    (name : String) (d : JobData) : HandlerResult :=
  if name == "task-status-update" then
    handleStatusUpdate st d
  else if name == "overdue-tasks-notification" then
    let r := handleOverdueTasks now st sendOk
    { outcome := HandlerOutcome.ok, store := r.storeAfter, errLogged := false }
  else
    { outcome := HandlerOutcome.unrecoverable, store := st, errLogged := true }

/-- The fetch sizes the paging loop sees when n matching rows remain: one
short (possibly empty) final fetch, preceded by full fetches of 100. -/
def fetchSizes (n : Nat) : List Nat :=
  if n < 100 then [n]
  else 100 :: fetchSizes (n - 100)
termination_by n
decreasing_by omega

/-- Sample task for single-row witnesses. -/
def witTask : Task :=
  { id := "a1", title := "t", description := none
    status := TaskStatus.pending, priority := TaskPriority.medium
    dueDate := none, userId := "u1", user := none }

/-- Sample one-row store. -/
def witStore : Store := [witTask]

/-- Update DTO that leaves the status value unchanged. -/
def witDtoSame : UpdateTaskDto :=
  { title := none, description := none, status := some TaskStatus.pending
    priority := none, dueDate := none }

/-- Update DTO that changes the status value. -/
def witDtoChange : UpdateTaskDto :=
  { title := none, description := none, status := some TaskStatus.completed
    priority := none, dueDate := none }

/-- Sample overdue pending task (dueDate 0, swept at now = 1). -/
def witOverdueTask : Task :=
  { id := "t", title := "x", description := none
    status := TaskStatus.pending, priority := TaskPriority.medium
    dueDate := some 0, userId := "u", user := none }

/-- Store of exactly 250 overdue pending tasks. -/
def witStore250 : Store := List.replicate 250 witOverdueTask

/-- Overdue pending task with no user relation (no recipient). -/
def witNoMailTask : Task :=
  { id := "n1", title := "x", description := none
    status := TaskStatus.pending, priority := TaskPriority.medium
    dueDate := some 0, userId := "u", user := none }

/-- Overdue pending task with a recipient. -/
def witMailTask : Task :=
  { id := "m1", title := "x", description := none
    status := TaskStatus.pending, priority := TaskPriority.medium
    dueDate := some 0, userId := "u"
    user := some { email := "a@b.c", name := "A" } }

/-- Two-row overdue store: one task without recipient, one with. -/
def witStore2 : Store := [witNoMailTask, witMailTask]

theorem parseStatus_none_iff (s : String) :
    parseStatus s = none ↔ ¬ s ∈ statusValues := by
  by_cases h1 : s = "pending" <;> by_cases h2 : s = "in_progress" <;>
    by_cases h3 : s = "completed" <;>
    simp [parseStatus, statusValues, h1, h2, h3]

theorem parseStatus_toStr (ts : TaskStatus) :
    parseStatus (statusToStr ts) = some ts := by
  cases ts <;> rfl

theorem matchesWhere_sweep (now : Int) (page : Nat) (t : Task) :
    matchesWhere (sweepFilterDto now page) none false t = overduePred now t := by
  simp only [matchesWhere, sweepFilterDto, overduePred, Bool.not_false, if_pos]
  cases t.dueDate <;> simp

/-- The page of rows the sweep's findAll call returns: the skip/take window
of the overdue rows, with skip = (page - 1) * 100. -/
theorem findAll_sweep (now : Int) (st : Store) (page : Nat) (hp : page ≠ 0) :
    (findAll st (sweepFilterDto now page) none false).data
      = ((st.filter (overduePred now)).drop ((page - 1) * 100)).take 100 := by
  have hcong : List.filter (matchesWhere (sweepFilterDto now page) none false) st
      = List.filter (overduePred now) st :=
    List.filter_congr (fun t _ => matchesWhere_sweep now page t)
  simp only [findAll, hcong]
  simp [sweepFilterDto, hp]

/-- Wholly-true filters keep a replicated list intact. -/
theorem filter_replicate_true {α : Type} (p : α → Bool) (a : α)
    (h : p a = true) (n : Nat) :
    (List.replicate n a).filter p = List.replicate n a := by
  induction n with
  | zero => rfl
  | succ n ih => simp [List.replicate_succ, List.filter_cons, h, ih]

/-- The page the sweep's fetch at a 100-divisible offset returns. -/
theorem sweep_page_data (now : Int) (st : Store) (offset : Nat)
    (hdvd : 100 ∣ offset) :
    (findAll st (sweepFilterDto now (offset / 100 + 1)) none false).data
      = ((st.filter (overduePred now)).drop offset).take 100 := by
  rw [findAll_sweep now st (offset / 100 + 1) (Nat.succ_ne_zero _)]
  have h : (offset / 100 + 1 - 1) * 100 = offset := by omega
  rw [h]

/-- A fetch at or past the end of the overdue rows ends the loop at once. -/
theorem sweepLoop_empty (now : Int) (st : Store) (sendOk : String → Bool)
    (offset : Nat) (hdvd : 100 ∣ offset)
    (hle : (st.filter (overduePred now)).length ≤ offset) :
    sweepLoop now st sendOk offset =
      { fetchedPages := [0], attempted := [], sent := [], total := 0
        storeAfter := st, success := true } := by
  have hdrop : (st.filter (overduePred now)).drop offset = [] :=
    List.drop_eq_nil_of_le hle
  unfold sweepLoop
  simp only [sweep_page_data now st offset hdvd, hdrop]
  simp

/-- Closed form of one whole sweep run from a 100-divisible offset over a
fixed store: the fetch sizes are fetchSizes of the remaining count, a
sendMail call is attempted exactly for the remaining overdue rows that have
a recipient, the successful sends are the attempted ids the mailer accepts,
the returned total is the remaining count, the store is untouched and the
job succeeds.  k is a fuel bound for the induction. -/
theorem sweepLoop_spec (now : Int) (st : Store) (sendOk : String → Bool) :
    ∀ (k offset : Nat),
      (st.filter (overduePred now)).length + 100 ≤ k + offset → 100 ∣ offset →
      sweepLoop now st sendOk offset =
        { fetchedPages := fetchSizes ((st.filter (overduePred now)).length - offset)
          attempted := (((st.filter (overduePred now)).drop offset).filter
            hasRecipient).map (fun t => t.id)
          sent := ((((st.filter (overduePred now)).drop offset).filter
            hasRecipient).map (fun t => t.id)).filter sendOk
          total := (st.filter (overduePred now)).length - offset
          storeAfter := st
          success := true } := by
  intro k
  induction k with
  | zero =>
    intro offset hk hdvd
    have hle : (st.filter (overduePred now)).length ≤ offset := by omega
    have hdrop : (st.filter (overduePred now)).drop offset = [] :=
      List.drop_eq_nil_of_le hle
    have h0 : (st.filter (overduePred now)).length - offset = 0 := by omega
    rw [sweepLoop_empty now st sendOk offset hdvd hle, hdrop, h0]
    rw [fetchSizes]
    simp
  | succ k ih =>
    intro offset hk hdvd
    by_cases hA : (st.filter (overduePred now)).length ≤ offset
    · have hdrop : (st.filter (overduePred now)).drop offset = [] :=
        List.drop_eq_nil_of_le hA
      have h0 : (st.filter (overduePred now)).length - offset = 0 := by omega
      rw [sweepLoop_empty now st sendOk offset hdvd hA, hdrop, h0]
      rw [fetchSizes]
      simp
    · push_neg at hA
      have hlen : ((st.filter (overduePred now)).drop offset).length
          = (st.filter (overduePred now)).length - offset := by
        rw [List.length_drop]
      by_cases hB : (st.filter (overduePred now)).length - offset < 100
      · -- short final page
        have htake : ((st.filter (overduePred now)).drop offset).take 100
            = (st.filter (overduePred now)).drop offset :=
          List.take_of_length_le (by omega)
        have hfs : fetchSizes ((st.filter (overduePred now)).length - offset)
            = [(st.filter (overduePred now)).length - offset] := by
          rw [fetchSizes, if_pos hB]
        unfold sweepLoop
        simp only [sweep_page_data now st offset hdvd, htake, hlen]
        rw [dif_neg (by omega), dif_pos hB, hfs]
      · -- full page, recurse
        push_neg at hB
        have htl : (((st.filter (overduePred now)).drop offset).take 100).length
            = 100 := by
          rw [List.length_take]
          omega
        have hfs : fetchSizes ((st.filter (overduePred now)).length - offset)
            = 100 :: fetchSizes ((st.filter (overduePred now)).length
                - (offset + 100)) := by
          have harg : (st.filter (overduePred now)).length - offset - 100
              = (st.filter (overduePred now)).length - (offset + 100) := by
            omega
          rw [fetchSizes, if_neg (by omega), harg]
        have hih := ih (offset + 100) (by omega) (by omega)
        unfold sweepLoop
        simp only [sweep_page_data now st offset hdvd]
        rw [dif_neg (by omega), dif_neg (by omega)]
        simp only [hih, htl, hfs]
        have hdd : (st.filter (overduePred now)).drop (offset + 100)
            = ((st.filter (overduePred now)).drop offset).drop 100 := by
          rw [List.drop_drop]
        simp only [SweepRun.mk.injEq]
        refine ⟨trivial, ?_, ?_, by omega, trivial, trivial⟩
        · rw [hdd, ← List.map_append, ← List.filter_append,
            List.take_append_drop]
        · rw [hdd, ← List.filter_append, ← List.map_append,
            ← List.filter_append, List.take_append_drop]

/-- Closed form of a whole sweep job over a fixed store. -/
theorem handleOverdueTasks_spec (now : Int) (st : Store)
    (sendOk : String → Bool) :
    handleOverdueTasks now st sendOk =
      { fetchedPages := fetchSizes (st.filter (overduePred now)).length
        attempted := ((st.filter (overduePred now)).filter
          hasRecipient).map (fun t => t.id)
        sent := (((st.filter (overduePred now)).filter
          hasRecipient).map (fun t => t.id)).filter sendOk
        total := (st.filter (overduePred now)).length
        storeAfter := st
        success := true } := by
  have h := sweepLoop_spec now st sendOk
    ((st.filter (overduePred now)).length + 100) 0 (by omega) (by omega)
  simpa [handleOverdueTasks] using h

theorem fetchSizes_length (n : Nat) : (fetchSizes n).length = n / 100 + 1 := by
  induction n using Nat.strong_induction_on with
  | _ n ih =>
    by_cases h : n < 100
    · rw [fetchSizes, if_pos h]
      simp [Nat.div_eq_of_lt h]
    · rw [fetchSizes, if_neg h]
      rw [List.length_cons, ih (n - 100) (by omega)]
      omega

theorem fetchSizes_sum (n : Nat) : (fetchSizes n).sum = n := by
  induction n using Nat.strong_induction_on with
  | _ n ih =>
    by_cases h : n < 100
    · rw [fetchSizes, if_pos h]
      simp
    · rw [fetchSizes, if_neg h]
      rw [List.sum_cons, ih (n - 100) (by omega)]
      omega

theorem fetchSizes_ne_nil (n : Nat) : fetchSizes n ≠ [] := by
  by_cases h : n < 100
  · rw [fetchSizes, if_pos h]
    simp
  · rw [fetchSizes, if_neg h]
    simp

/-- Every fetch before the final one is a full page: the loop stops paging
at the first page that comes back short (or empty). -/
theorem fetchSizes_dropLast (n : Nat) :
    ∀ p ∈ (fetchSizes n).dropLast, p = 100 := by
  induction n using Nat.strong_induction_on with
  | _ n ih =>
    by_cases h : n < 100
    · rw [fetchSizes, if_pos h]
      simp
    · rw [fetchSizes, if_neg h,
        List.dropLast_cons_of_ne_nil (fetchSizes_ne_nil (n - 100))]
      intro p hp
      rcases List.mem_cons.mp hp with h1 | h1
      · exact h1
      · exact ih (n - 100) (by omega) p h1

theorem fetchSizes_250 : fetchSizes 250 = [100, 100, 50] := by
  rw [fetchSizes, if_neg (by omega), fetchSizes, if_neg (by omega),
    fetchSizes, if_pos (by omega)]

/-- An attempt that throws UnrecoverableError ends the job at once:
acked-and-dropped, no further attempt. -/
theorem runAttempts_unrecoverable (h : Nat → HandlerOutcome) (m a : Nat)
    (ha : h a = HandlerOutcome.unrecoverable) :
    runAttempts h m a = (a, JobTerminal.droppedJob) := by
  rw [runAttempts, ha]

/-- A handler that throws a retriable error on every attempt is retried
until attemptsMade reaches maxAttempts and the job terminal-fails there. -/
theorem runAttempts_recoverable (m : Nat) : ∀ a, a ≤ m →
    runAttempts (fun _ => HandlerOutcome.recoverable) m a
      = (m, JobTerminal.failedJob) := by
  have key : ∀ k a, m - a ≤ k → a ≤ m →
      runAttempts (fun _ => HandlerOutcome.recoverable) m a
        = (m, JobTerminal.failedJob) := by
    intro k
    induction k with
    | zero =>
      intro a h1 h2
      have ham : a = m := by omega
      subst ham
      rw [runAttempts]
      simp
    | succ k ih =>
      intro a h1 h2
      by_cases hlt : a < m
      · rw [runAttempts]
        simp only [dif_pos hlt]
        exact ih (a + 1) (by omega) (by omega)
      · have ham : a = m := by omega
        subst ham
        rw [runAttempts]
        simp
  exact fun a ha => key (m - a) a (by omega) ha

/-- C1: the persistence write and the enqueue of the follow-up job inside
create are atomic as a unit.  On success exactly one task-status-update job
is appended, carrying the new task's id and its initial status, and the task
is persisted; if the save throws, the transaction leaves store and queue
unchanged (no orphaned job) and create returns the error; if the enqueue
throws, the transaction rolls the persistence write back, leaving store and
queue unchanged, and create returns the error. -/
theorem claim_C1 (st : Store) (q : List QueuedJob) (dto : CreateTaskDto)
    (uid newId : String) :
    ((create st q dto uid newId false false).queue
        = q ++ [mkStatusJob newId (newTaskOf dto uid newId).status] ∧
      (create st q dto uid newId false false).store
        = st ++ [newTaskOf dto uid newId] ∧
      (create st q dto uid newId false false).outcome
        = Except.ok (newTaskOf dto uid newId)) ∧
    (∀ ef : Bool,
      (create st q dto uid newId true ef).queue = q ∧
      (create st q dto uid newId true ef).store = st ∧
      (create st q dto uid newId true ef).outcome
        = Except.error CreateFailure.saveFailed) ∧
    ((create st q dto uid newId false true).queue = q ∧
      (create st q dto uid newId false true).store = st ∧
      (create st q dto uid newId false true).outcome
        = Except.error CreateFailure.enqueueFailed) := by
  exact ⟨⟨rfl, rfl, rfl⟩, fun ef => ⟨rfl, rfl, rfl⟩, rfl, rfl, rfl⟩

/-- C2: a single-task update enqueues zero jobs when the status after the
update equals the pre-update snapshot's status, and exactly one
task-status-update job carrying the new status when it changed. -/
theorem claim_C2 (st : Store) (q : List QueuedJob) (id : String)
    (dto : UpdateTaskDto) (uid : String) (isAdmin : Bool) (t0 : Task)
    (h : findOne st id (some uid) isAdmin = some t0) :
    (dto.status.getD t0.status = t0.status →
      (update st q id dto uid isAdmin).queue = q) ∧
    (dto.status.getD t0.status ≠ t0.status →
      (update st q id dto uid isAdmin).queue
        = q ++ [mkStatusJob t0.id (dto.status.getD t0.status)]) := by
  unfold update
  rw [h]
  constructor
  · intro heq
    simp [mergeTask, heq]
  · intro hne
    simp [mergeTask, hne]
    exact fun hx => hne hx.symm

theorem claim_C2_witness :
    (update witStore [] ("a1") witDtoSame ("u1") false).queue = [] ∧
    (update witStore [] ("a1") witDtoChange ("u1") false).queue
      = [mkStatusJob ("a1") TaskStatus.completed] := by
  constructor
  · exact (claim_C2 witStore [] ("a1") witDtoSame ("u1") false witTask
      (by decide)).1 (by decide)
  · have h2 := (claim_C2 witStore [] ("a1") witDtoChange ("u1") false witTask
      (by decide)).2 (by decide)
    simpa using h2

/-- Counterexample to C3 as stated: a batch over one id that matches no row
(zero affected ids) still enqueues one job, so jobs are not enqueued per
affected id. -/
theorem claim_C3_cex :
    (batchUpdateStatus [] [] [("id1")] TaskStatus.completed ("u") false).updated
        = 0 ∧
    ((batchUpdateStatus [] [] [("id1")] TaskStatus.completed ("u") false).queue).length
        = 1 := by
  decide

/-- C3 (amended): a batch status update persists all matching rows in one
store operation, then enqueues exactly one task-status-update job per
REQUESTED id — affected or not — each job carrying that id with the new
status and its own attempts = 3 retry budget; for a request of k ids,
exactly k independent jobs are appended. -/
theorem claim_C3 (st : Store) (q : List QueuedJob) (taskIds : List String)
    (newStatus : TaskStatus) (uid : String) (isAdmin : Bool) :
    ((batchUpdateStatus st q taskIds newStatus uid isAdmin).store
        = st.map (fun t =>
            if taskIds.contains t.id && (isAdmin || t.userId == uid)
            then { t with status := newStatus } else t)) ∧
    ((batchUpdateStatus st q taskIds newStatus uid isAdmin).queue
        = q ++ taskIds.map (fun tid => mkStatusJob tid newStatus)) ∧
    ((batchUpdateStatus st q taskIds newStatus uid isAdmin).queue.length
        = q.length + taskIds.length) ∧
    ((taskIds.map (fun tid => mkStatusJob tid newStatus)).all
        (fun j => j.attempts == 3) = true) := by
  refine ⟨rfl, rfl, by simp [batchUpdateStatus], ?_⟩
  simp [List.all_eq_true]
  intro j hj
  rfl

/-- C4: a task-status-update job whose payload misses taskId or status, or
whose status lies outside the enum, makes the handler raise Unrecoverable
after logging at error level; the queue acks-and-drops it with the attempt
count staying at 1, and the store is untouched. -/
theorem claim_C4 (st : Store) (d : JobData) (m : Nat)
    (hbad : falsyStr d.taskId = true ∨
      ∀ s, d.status = some s → ¬ s ∈ statusValues) :
    (handleStatusUpdate st d).outcome = HandlerOutcome.unrecoverable ∧
    (handleStatusUpdate st d).store = st ∧
    (handleStatusUpdate st d).errLogged = true ∧
    runAttempts (fun _ => (handleStatusUpdate st d).outcome) m 1
      = (1, JobTerminal.droppedJob) := by
  have hout : handleStatusUpdate st d =
      { outcome := HandlerOutcome.unrecoverable, store := st
        errLogged := true } := by
    unfold handleStatusUpdate
    rcases hbad with hb | hb
    · simp [hb]
    · cases hd : d.status with
      | none => simp [hd, falsyStr]
      | some s =>
        have hs := hb s hd
        by_cases he : s = ""
        · simp [hd, falsyStr, he]
        · have hp : parseStatus s = none := (parseStatus_none_iff s).mpr hs
          by_cases ht : falsyStr d.taskId
          · simp [ht]
          · simp [ht, hd, falsyStr, he, hp]
  exact ⟨by rw [hout], by rw [hout], by rw [hout],
    runAttempts_unrecoverable _ m 1 (by rw [hout])⟩

theorem claim_C4_witness :
    (handleStatusUpdate []
        { taskId := none, status := some ("completed") }).outcome
        = HandlerOutcome.unrecoverable ∧
    runAttempts (fun _ => (handleStatusUpdate []
        { taskId := none, status := some ("completed") }).outcome) 3 1
      = (1, JobTerminal.droppedJob) := by
  have h := claim_C4 [] { taskId := none, status := some ("completed") } 3
    (Or.inl (by decide))
  exact ⟨h.1, h.2.2.2⟩

/-- C5: a well-formed task-status-update job whose taskId matches no row
makes the handler raise a retriable (Recoverable, not Unrecoverable) error
on each attempt, so the queue retries it until attemptsMade reaches
maxAttempts and terminal-fails it there, never retrying past that bound. -/
theorem claim_C5 (st : Store) (tid s : String) (m : Nat)
    (hm : 1 ≤ m) (htid : ¬ tid = "") (hs : s ∈ statusValues)
    (habsent : ∀ t ∈ st, ¬ t.id = tid) :
    (handleStatusUpdate st { taskId := some tid, status := some s }).outcome
        = HandlerOutcome.recoverable ∧
    (handleStatusUpdate st { taskId := some tid, status := some s }).store
        = st ∧
    runAttempts (fun _ => (handleStatusUpdate st
        { taskId := some tid, status := some s }).outcome) m 1
      = (m, JobTerminal.failedJob) := by
  have hfind : st.find? (fun t => t.id == tid) = none := by
    rw [List.find?_eq_none]
    intro t ht
    simpa using habsent t ht
  have hout : handleStatusUpdate st { taskId := some tid, status := some s } =
      { outcome := HandlerOutcome.recoverable, store := st
        errLogged := true } := by
    simp only [statusValues, List.mem_cons, List.not_mem_nil, or_false] at hs
    unfold handleStatusUpdate
    rcases hs with hv | hv | hv <;> subst hv <;>
      simp [falsyStr, htid, parseStatus, updateStatus, hfind]
  refine ⟨by rw [hout], by rw [hout], ?_⟩
  have hfun : (fun _ : Nat => (handleStatusUpdate st
      { taskId := some tid, status := some s }).outcome)
      = fun _ : Nat => HandlerOutcome.recoverable := by
    funext a
    rw [hout]
  rw [hfun]
  exact runAttempts_recoverable m 1 hm

theorem claim_C5_witness :
    (handleStatusUpdate []
        { taskId := some ("t1"), status := some ("completed") }).outcome
        = HandlerOutcome.recoverable ∧
    runAttempts (fun _ => (handleStatusUpdate []
        { taskId := some ("t1"), status := some ("completed") }).outcome) 3 1
      = (3, JobTerminal.failedJob) := by
  have h := claim_C5 [] ("t1") ("completed") 3 (by omega) (by decide)
    (by decide) (by intro t ht; cases ht)
  exact ⟨h.1, h.2.2⟩

/-- C6: a sweep over an unchanged store holding exactly 250 overdue rows
fetches exactly 3 pages of sizes 100, 100, 50 and reports
totalOverdueProcessed = 250; in general every fetch before the last is a
full page, i.e. paging stops at the first page shorter than the page size
(or empty). -/
theorem claim_C6 (now : Int) (st : Store) (sendOk : String → Bool)
    (h : (st.filter (overduePred now)).length = 250) :
    (handleOverdueTasks now st sendOk).fetchedPages = [100, 100, 50] ∧
    (handleOverdueTasks now st sendOk).total = 250 ∧
    ∀ (now2 : Int) (st2 : Store) (g : String → Bool),
      ((handleOverdueTasks now2 st2 g).fetchedPages.dropLast.all
        (fun p => p == 100)) = true := by
  refine ⟨?_, ?_, ?_⟩
  · simp [handleOverdueTasks_spec, h, fetchSizes_250]
  · simp [handleOverdueTasks_spec, h]
  · intro now2 st2 g
    simp only [handleOverdueTasks_spec, List.all_eq_true, beq_iff_eq]
    exact fetchSizes_dropLast _

theorem claim_C6_witness :
    (handleOverdueTasks 1 witStore250 (fun _ => true)).fetchedPages
        = [100, 100, 50] ∧
    (handleOverdueTasks 1 witStore250 (fun _ => true)).total = 250 := by
  have hp : overduePred 1 witOverdueTask = true := by decide
  have hlen : (witStore250.filter (overduePred 1)).length = 250 := by
    rw [witStore250, filter_replicate_true _ _ hp 250]
    simp
  have h := claim_C6 1 witStore250 (fun _ => true) hlen
  exact ⟨h.1, h.2.1⟩

/-- C7: over a store whose page reads genuinely advance (as the embedded
offset semantics do), the sweep's paging loop terminates after at most
ceil(totalOverdueCount / 100) + 1 fetches. -/
theorem claim_C7 (now : Int) (st : Store) (sendOk : String → Bool) :
    (handleOverdueTasks now st sendOk).fetchedPages.length
      ≤ ((st.filter (overduePred now)).length + 99) / 100 + 1 := by
  simp only [handleOverdueTasks_spec, fetchSizes_length]
  omega

/-- C8: sendMail failures never abort the sweep: whatever the mailer
outcomes, the job reports success and the set of tasks whose notification
is attempted is exactly the overdue rows with a recipient — identical under
any two outcome assignments, so one failing send inside a page leaves every
other task's attempt in place. -/
theorem claim_C8 (now : Int) (st : Store) (f g : String → Bool) :
    (handleOverdueTasks now st f).success = true ∧
    (handleOverdueTasks now st f).attempted
      = ((st.filter (overduePred now)).filter hasRecipient).map
          (fun t => t.id) ∧
    (handleOverdueTasks now st f).attempted
      = (handleOverdueTasks now st g).attempted := by
  simp [handleOverdueTasks_spec]

/-- C9: the sweep performs no store mutation — the store after a sweep is
the store before it — and running it twice in succession over the unchanged
data set attempts the same list of task ids both times and reports the same
total, whatever the mailer outcomes of each run. -/
theorem claim_C9 (now : Int) (st : Store) (f g : String → Bool) :
    (handleOverdueTasks now st f).storeAfter = st ∧
    (handleOverdueTasks now
        (handleOverdueTasks now st f).storeAfter g).storeAfter = st ∧
    (handleOverdueTasks now
        (handleOverdueTasks now st f).storeAfter g).attempted
      = (handleOverdueTasks now st f).attempted ∧
    (handleOverdueTasks now
        (handleOverdueTasks now st f).storeAfter g).total
      = (handleOverdueTasks now st f).total := by
  simp [handleOverdueTasks_spec]

/-- C10: totalOverdueProcessed equals the number of overdue rows fetched
across all pages — the sum of the fetch sizes and the overdue count —
independent of the notification outcomes; sends are the attempted ids the
mailer accepted, and on a concrete store holding one recipient-less task
and one task whose send fails, the total still counts both while zero
emails go out. -/
theorem claim_C10 (now : Int) (st : Store) (f g : String → Bool) :
    ((handleOverdueTasks now st f).total
        = (st.filter (overduePred now)).length ∧
      (handleOverdueTasks now st f).total
        = (handleOverdueTasks now st f).fetchedPages.sum ∧
      (handleOverdueTasks now st f).total
        = (handleOverdueTasks now st g).total ∧
      (handleOverdueTasks now st f).sent
        = (handleOverdueTasks now st f).attempted.filter f) ∧
    ((handleOverdueTasks 1 witStore2 (fun _ => false)).total = 2 ∧
      (handleOverdueTasks 1 witStore2 (fun _ => false)).sent.length = 0) := by
  refine ⟨by simp [handleOverdueTasks_spec, fetchSizes_sum], ?_, ?_⟩
  · simp only [handleOverdueTasks_spec]
    decide
  · simp [handleOverdueTasks_spec]

end TaskFlow
